import Mathlib

/-!
Shallow embedding of viseron's component/domain setup orchestrator
(`viseron/components/__init__.py`) and of the JSON file storage helper
(`viseron/helpers/storage.py`), with theorems checking the natural-language
specification against the code.

Modelling conventions:
* Python dicts become association lists (or membership functions where only
  key presence matters); `d[k]` becomes a lookup returning `Option`, with
  `none` standing for `KeyError`.
* Fallible code returns `Option`/`Except`; an uncaught Python exception is a
  `none`/`Except.error` result.
* Unbounded recursion in the source is modelled with explicit fuel; `none`
  from fuel exhaustion corresponds to a Python `RecursionError`/divergence.
* Logging, timers and the periodic slow-setup warnings have no observable
  effect on the data model and are not modelled.
-/

/-! ## JSON values (`json.load` / `json.dumps` payloads) -/

/-- A JSON value, as produced by `json.load` and consumed by `json.dumps`.
The encode/decode round trip of the `json` module on JSON-serialisable data
is abstracted away: files store the parsed value directly. -/
inductive JValue where
  | jnull
  | jbool (b : Bool)
  | jnum (n : Int)
  | jstr (s : String)
  | jarr (elems : List JValue)
  | jobj (fields : List (String × JValue))

mutual

def JValue.decEq : (a b : JValue) → Decidable (a = b)
  | .jnull, .jnull => isTrue rfl
  | .jbool a, .jbool b =>
    if h : a = b then isTrue (by rw [h]) else
      isFalse (fun hc => h (by injection hc))
  | .jnum a, .jnum b =>
    if h : a = b then isTrue (by rw [h]) else
      isFalse (fun hc => h (by injection hc))
  | .jstr a, .jstr b =>
    if h : a = b then isTrue (by rw [h]) else
      isFalse (fun hc => h (by injection hc))
  | .jarr xs, .jarr ys =>
    match JValue.decEqList xs ys with
    | isTrue h => isTrue (by rw [h])
    | isFalse h => isFalse (fun hc => h (by injection hc))
  | .jobj xs, .jobj ys =>
    match JValue.decEqFields xs ys with
    | isTrue h => isTrue (by rw [h])
    | isFalse h => isFalse (fun hc => h (by injection hc))
  | .jnull, .jbool _ | .jnull, .jnum _ | .jnull, .jstr _ | .jnull, .jarr _
  | .jnull, .jobj _ | .jbool _, .jnull | .jbool _, .jnum _ | .jbool _, .jstr _
  | .jbool _, .jarr _ | .jbool _, .jobj _ | .jnum _, .jnull | .jnum _, .jbool _
  | .jnum _, .jstr _ | .jnum _, .jarr _ | .jnum _, .jobj _ | .jstr _, .jnull
  | .jstr _, .jbool _ | .jstr _, .jnum _ | .jstr _, .jarr _ | .jstr _, .jobj _
  | .jarr _, .jnull | .jarr _, .jbool _ | .jarr _, .jnum _ | .jarr _, .jstr _
  | .jarr _, .jobj _ | .jobj _, .jnull | .jobj _, .jbool _ | .jobj _, .jnum _
  | .jobj _, .jstr _ | .jobj _, .jarr _ => isFalse (fun hc => nomatch hc)

def JValue.decEqList : (a b : List JValue) → Decidable (a = b)
  | [], [] => isTrue rfl
  | [], _ :: _ => isFalse (fun hc => nomatch hc)
  | _ :: _, [] => isFalse (fun hc => nomatch hc)
  | x :: xs, y :: ys =>
    match JValue.decEq x y with
    | isFalse h => isFalse (fun hc => h (by injection hc))
    | isTrue h1 =>
      match JValue.decEqList xs ys with
      | isTrue h2 => isTrue (by rw [h1, h2])
      | isFalse h => isFalse (fun hc => h (by injection hc))

def JValue.decEqFields : (a b : List (String × JValue)) → Decidable (a = b)
  | [], [] => isTrue rfl
  | [], _ :: _ => isFalse (fun hc => nomatch hc)
  | _ :: _, [] => isFalse (fun hc => nomatch hc)
  | (k, v) :: xs, (k2, v2) :: ys =>
    if hk : k = k2 then
      match JValue.decEq v v2 with
      | isFalse h =>
        isFalse (fun hc => h (by injection hc with h3 h4; cases h3; rfl))
      | isTrue h1 =>
        match JValue.decEqFields xs ys with
        | isTrue h2 => isTrue (by rw [hk, h1, h2])
        | isFalse h => isFalse (fun hc => h (by injection hc))
    else
      isFalse (fun hc => hk (by injection hc with h3 h4; cases h3; rfl))

end

instance : DecidableEq JValue := JValue.decEq

/-- First-match association-list lookup, the model of Python dict subscript
(`none` = `KeyError`). -/
def lookupKey {α β : Type} [DecidableEq α] : List (α × β) → α → Option β
  | [], _ => none
  | (k, v) :: rest, k' => if k = k' then some v else lookupKey rest k'

/-- Python `d[k]` on a JSON value: only objects support string subscripts;
subscripting any other value raises (`TypeError`/`KeyError`), modelled as
`none`. -/
def JValue.lookup : JValue → String → Option JValue
  | .jobj fields, k => lookupKey fields k
  | _, _ => none

/-! ## `viseron/helpers/storage.py` -/

/-- Errors escaping the storage helper: the two dedicated error classes plus
an uncaught `KeyError`/`TypeError` from a dict subscript. -/
inductive StorageErr where
  | writeError
  | readError
  | keyError
deriving DecidableEq

/-- What the filesystem holds at one path: no file (`FileNotFoundError` on
open), an I/O failure (`OSError` on open/read), or a parsed JSON content. -/
inductive FileRes where
  | absent
  | ioFail
  | content (v : JValue)
deriving DecidableEq

/-- The filesystem as seen by `Storage`: content per path, plus whether the
write-to-temp-then-rename sequence of `_write` fails with `OSError`. -/
structure FS where
  file : String → FileRes
  writeFails : Bool

/-- `viseron.const.STORAGE_PATH`. Modelled from the spec: `viseron/const.py`
is not part of the sources; the storage root is only ever used as a path
prefix, so its concrete value is immaterial. -/
def STORAGE_PATH : String := "/config/.viseron"

/-- The `Storage` object: namespace key, expected version, and the in-memory
cache `self._data` (`none` until first load or save). The lock only
serialises access and has no effect in this sequential model. -/
structure Storage where
  key : String
  version : Int
  _data : Option JValue
deriving DecidableEq

/-- `Storage.path`: `os.path.join(STORAGE_PATH, self.key)`. -/
def Storage.path (s : Storage) : String := STORAGE_PATH ++ "/" ++ s.key

/-- `Storage._load`: returns `{}` when the file does not exist, raises
`StorageReadError` on any other `OSError`, otherwise returns the parsed file
content after the version check (`data["version"] != self.version` only logs
a warning on mismatch, but the subscript itself raises if the stored value
has no `"version"` field). -/
def Storage._load (s : Storage) (fs : FS) : Except StorageErr JValue :=
  match fs.file s.path with
  | .absent => .ok (.jobj [])
  | .ioFail => .error .readError
  | .content v =>
    match v.lookup "version" with
    | none => .error .keyError
    | some _ => .ok v

/-- The `Storage.data` property: populate the cache from `_load` when it is
still `None`, then return `self._data["data"]`. Returns the read result
together with the (possibly mutated) object. -/
def Storage.dataRead (s : Storage) (fs : FS) : Except StorageErr JValue × Storage :=
  let loaded : Except StorageErr JValue × Storage :=
    match s._data with
    | some d => (.ok d, s)
    | none =>
      match s._load fs with
      | .error e => (.error e, s)
      | .ok d => (.ok d, { s with _data := some d })
  match loaded with
  | (.error e, s') => (.error e, s')
  | (.ok d, s') =>
    match d.lookup "data" with
    | some v => (.ok v, s')
    | none => (.error .keyError, s')

/-- `Storage._write`: write to a temp file then atomically `os.replace` it
over `self.path`; on `OSError` the temp file is cleaned up best-effort and
`StorageWriteError` is raised, leaving the target file untouched. -/
def Storage._write (s : Storage) (data : JValue) (fs : FS) :
    Except StorageErr Unit × FS :=
  if fs.writeFails then
    (.error .writeError, fs)
  else
    (.ok (), { fs with file := fun p => if p = s.path then .content data else fs.file p })

/-- `Storage.save`: assign `self._data = {"version": ..., "data": ...}`
first, serialise it, then `_write` under the lock. The returned `Storage`
carries the mutated cache even when the write raised. -/
def Storage.save (s : Storage) (d : JValue) (fs : FS) :
    Except StorageErr Unit × Storage × FS :=
  let newData : JValue := .jobj [("version", .jnum s.version), ("data", d)]
  let s' : Storage := { s with _data := some newData }
  match s'._write newData fs with
  | (.ok (), fs') => (.ok (), s', fs')
  | (.error e, fs') => (.error e, s', fs')

/-! ### Storage theorems -/

/-- C7: the claim says that reading `data` on a `Storage` whose backing file
does not exist returns an empty result without raising. In the code,
`_load` does return the empty dict `{}` (first conjunct), but the `data`
property then evaluates `self._data["data"]`, and the empty dict has no
`"data"` key, so the read raises an uncaught `KeyError` (second conjunct)
instead of returning an empty result. The distinct-read-error half of the
claim does hold: an I/O failure other than a missing file raises
`StorageReadError` (third conjunct). -/
theorem storage_missing_file_raises_keyerror :
    Storage._load { key := "foo", version := 1, _data := none }
        { file := fun _ => .absent, writeFails := false } = .ok (.jobj []) ∧
    (Storage.dataRead { key := "foo", version := 1, _data := none }
        { file := fun _ => .absent, writeFails := false }).1 = .error .keyError ∧
    (Storage.dataRead { key := "foo", version := 1, _data := none }
        { file := fun _ => .absent, writeFails := false }).1 ≠ .ok (.jobj []) := by
  refine ⟨rfl, rfl, ?_⟩
  intro h
  simp [Storage.dataRead, Storage._load, Storage.path, JValue.lookup, lookupKey] at h

/-- C8: saving a dict `d` under a namespace key and then reading `data` on a
fresh `Storage` for the same key and version returns exactly `d`: save
followed by load round-trips. -/
theorem storage_save_load_roundtrip (key : String) (version : Int) (d : JValue)
    (fs : FS) (hw : fs.writeFails = false) :
    (Storage.save { key := key, version := version, _data := none } d fs).1 = .ok () ∧
    (Storage.dataRead { key := key, version := version, _data := none }
        (Storage.save { key := key, version := version, _data := none } d fs).2.2).1 =
      .ok d := by
  constructor
  · simp [Storage.save, Storage._write, hw]
  · simp [Storage.save, Storage._write, hw, Storage.dataRead, Storage._load,
      Storage.path, JValue.lookup, lookupKey]

/-- Witness for C8 at a concrete input: key `"foo"`, version 1, data
`{"a": 1}`, empty filesystem. -/
theorem storage_save_load_roundtrip_witness :
    ({ file := fun _ => .absent, writeFails := false } : FS).writeFails = false ∧
    ((Storage.save { key := "foo", version := 1, _data := none }
        (.jobj [("a", .jnum 1)]) { file := fun _ => .absent, writeFails := false }).1 =
      .ok () ∧
    (Storage.dataRead { key := "foo", version := 1, _data := none }
        (Storage.save { key := "foo", version := 1, _data := none }
          (.jobj [("a", .jnum 1)])
          { file := fun _ => .absent, writeFails := false }).2.2).1 =
      .ok (.jobj [("a", .jnum 1)])) :=
  ⟨rfl, storage_save_load_roundtrip "foo" 1 (.jobj [("a", .jnum 1)])
    { file := fun _ => .absent, writeFails := false } rfl⟩

/-- C10: `save` assigns the new value to the in-memory cache before
attempting the file write, so when the write raises `StorageWriteError`, a
subsequent `data` read on the same object (against any filesystem) still
returns the new, unpersisted value. -/
theorem storage_save_failure_keeps_new_data (s : Storage) (d : JValue) (fs fs₂ : FS)
    (hw : fs.writeFails = true) :
    (s.save d fs).1 = .error .writeError ∧
    (Storage.dataRead (s.save d fs).2.1 fs₂).1 = .ok d := by
  constructor
  · simp [Storage.save, Storage._write, hw]
  · simp [Storage.save, Storage._write, hw, Storage.dataRead, JValue.lookup, lookupKey]

/-- Witness for C10 at a concrete input: a failing filesystem write leaves
the object returning the new data. -/
theorem storage_save_failure_keeps_new_data_witness :
    ({ file := fun _ => .absent, writeFails := true } : FS).writeFails = true ∧
    ((Storage.save { key := "foo", version := 1, _data := none }
        (.jobj [("a", .jnum 1)]) { file := fun _ => .absent, writeFails := true }).1 =
      .error .writeError ∧
    (Storage.dataRead
        (Storage.save { key := "foo", version := 1, _data := none }
          (.jobj [("a", .jnum 1)])
          { file := fun _ => .absent, writeFails := true }).2.1
        { file := fun _ => .absent, writeFails := true }).1 =
      .ok (.jobj [("a", .jnum 1)])) :=
  ⟨rfl, storage_save_failure_keeps_new_data
    { key := "foo", version := 1, _data := none } (.jobj [("a", .jnum 1)])
    { file := fun _ => .absent, writeFails := true }
    { file := fun _ => .absent, writeFails := true } rfl⟩

/-! ## `viseron/components/__init__.py`: data model -/

/-- `viseron.const.COMPONENT_RETRY_INTERVAL`. Modelled from the spec:
`viseron/const.py` is not among the sources; §8 of the spec fixes the
NotReady backoff to base 3, max 60 for both components and domains. -/
def COMPONENT_RETRY_INTERVAL : Nat := 3

/-- `viseron.const.COMPONENT_RETRY_INTERVAL_MAX`. Modelled from the spec
(see `COMPONENT_RETRY_INTERVAL`). -/
def COMPONENT_RETRY_INTERVAL_MAX : Nat := 60

/-- `viseron.const.DOMAIN_RETRY_INTERVAL`. Modelled from the spec
(see `COMPONENT_RETRY_INTERVAL`). -/
def DOMAIN_RETRY_INTERVAL : Nat := 3

/-- `viseron.const.DOMAIN_RETRY_INTERVAL_MAX`. Modelled from the spec
(see `COMPONENT_RETRY_INTERVAL`). -/
def DOMAIN_RETRY_INTERVAL_MAX : Nat := 60

/-- The `wait_time` computed in `Component.setup_component` when the setup
routine raises `ComponentNotReady`:
`min(tries * COMPONENT_RETRY_INTERVAL, COMPONENT_RETRY_INTERVAL_MAX)`. -/
def componentWaitTime (tries : Nat) : Nat :=
  min (tries * COMPONENT_RETRY_INTERVAL) COMPONENT_RETRY_INTERVAL_MAX

/-- The `wait_time` computed in `Component.setup_domain` when the setup
routine raises `DomainNotReady`:
`min(tries * DOMAIN_RETRY_INTERVAL, DOMAIN_RETRY_INTERVAL_MAX)`. -/
def domainWaitTime (tries : Nat) : Nat :=
  min (tries * DOMAIN_RETRY_INTERVAL) DOMAIN_RETRY_INTERVAL_MAX

/-- The value a Python setup routine returned, as far as the orchestrator
distinguishes it: `result is True`, `result is False`, or any non-boolean. -/
inductive PyRes where
  | pTrue
  | pFalse
  | pOther
deriving DecidableEq

/-- Outcome of the config validation (`validate_component_config` /
`validate_domain_config`): `vNone` is the invalid marker `None` returned
when the schema rejects the config or itself raises; `vVal b` is a returned
config value with Python truthiness `b` (for components without a
`CONFIG_SCHEMA` the returned literal `True` is `vVal true`; for domains the
raw config is returned, so its own truthiness applies). -/
inductive VConfig where
  | vNone
  | vVal (truthy : Bool)
deriving DecidableEq

/-- Python truthiness of the validation outcome, as tested by `if config:`. -/
def VConfig.truthy : VConfig → Bool
  | .vNone => false
  | .vVal b => b

/-- How one invocation of a setup routine ends: it returns a value, raises
the NotReady signal (`ComponentNotReady`/`DomainNotReady`), or raises any
other exception. -/
inductive SetupCall where
  | returns (r : PyRes)
  | notReady
  | raises
deriving DecidableEq

/-- `viseron.domains.RequireDomain` (a required DependencyRef). Modelled
from the spec: the class lives in `viseron/domains/__init__.py`, which is
not among the sources; the source at hand reads only its `domain` and
`identifier` attributes, and the spec defines a DependencyRef as domain
type plus identifier. -/
structure RequireDomain where
  domain : String
  identifier : Option String
deriving DecidableEq

/-- `viseron.domains.OptionalDomain` (an optional DependencyRef). Modelled
from the spec, as for `RequireDomain`. -/
structure OptionalDomain where
  domain : String
  identifier : Option String
deriving DecidableEq

/-- The `DomainToSetup` dataclass. The owning component is referenced by
name; equality is field-wise, as for the Python dataclass. -/
structure DomainToSetup where
  component : String
  domain : String
  config : JValue
  identifier : Option String
  require_domains : List RequireDomain
  optional_domains : List OptionalDomain
deriving DecidableEq

/-- The (domain type, identifier) pair under which a `DomainToSetup` is
filed in `DOMAINS_TO_SETUP` and `DOMAIN_SETUP_TASKS`. -/
def DomainToSetup.key (d : DomainToSetup) : String × Option String :=
  (d.domain, d.identifier)

/-- Python truthiness of an identifier (`if domain_to_setup.identifier:`):
`None` and the empty string are falsy. -/
def truthyIdent : Option String → Bool
  | none => false
  | some s => !s.isEmpty

/-- The test `dep.domain in vis.data[DOMAIN_IDENTIFIERS] and dep.identifier
in vis.data[DOMAIN_IDENTIFIERS][dep.domain]`, shared by the optional-
dependency presence checks and the required-dependency resolution.
`DOMAIN_IDENTIFIERS` maps a domain type to the list of identifiers queued
for setup. -/
def identifierRegistered (dIds : List (String × List String)) (domain : String)
    (identifier : Option String) : Bool :=
  match lookupKey dIds domain with
  | none => false
  | some ids =>
    match identifier with
    | none => false
    | some s => decide (s ∈ ids)

/-! ## `Component.setup_component` (member function) -/

/-- The environment a component setup runs against: the outcome of config
validation and, per attempt number, how the component module's `setup`
routine ends. The module itself is assumed importable here; an absent
module raises `ModuleNotFoundError` before this point and is handled by the
top-level `setup_component` (see `MemberOutcome`). -/
structure CompEnv where
  validate : VConfig
  setupResult : Nat → SetupCall

/-- The registry state a component setup touches: the flattened global
`DOMAINS_TO_SETUP` table and this component's own `domains_to_setup`
list. -/
structure CompSetupState where
  domains_to_setup : List DomainToSetup
  queued : List DomainToSetup
deriving DecidableEq

/-- `del vis.data[DOMAINS_TO_SETUP][d.domain][d.identifier]`: remove the
first entry filed under the key; `none` is the `KeyError` raised when the
key is absent. -/
def removeByKey : List DomainToSetup → String × Option String →
    Option (List DomainToSetup)
  | [], _ => none
  | e :: rest, k =>
    if e.key = k then some rest
    else (removeByKey rest k).map (fun l => e :: l)

/-- The purge loop of `Component.setup_component`: for every queued domain,
delete its key from the global table. -/
def purgeDomains : List DomainToSetup → List DomainToSetup →
    Option (List DomainToSetup)
  | [], table => some table
  | d :: rest, table =>
    match removeByKey table d.key with
    | none => none
    | some table2 => purgeDomains rest table2

/-- What one call to `Component.setup_component` produced: its boolean
return value, whether the component's own setup routine was invoked,
the delay of the retry timer it scheduled (on `ComponentNotReady`), and the
resulting registry state. -/
structure CompSetupResult where
  result : Bool
  setupInvoked : Bool
  retryDelay : Option Nat
  state : CompSetupState
deriving DecidableEq

/-- `Component.setup_component`: validate the config; if it is truthy,
invoke the module's setup routine, turning `ComponentNotReady` into a
scheduled background retry after `componentWaitTime tries` and any other
exception into a logged failure (`result` stays `False` in both cases).
A `True` result returns `True` with the state untouched; anything else
purges every queued domain from `DOMAINS_TO_SETUP`, clears the component's
own list, and returns `False` (`none` = an uncaught `KeyError` from the
purge loop). -/
def Component.setup_component (env : CompEnv) (tries : Nat)
    (st : CompSetupState) : Option CompSetupResult :=
  let config := env.validate
  let invoked := config.truthy
  let retryDelay : Option Nat :=
    if config.truthy then
      match env.setupResult tries with
      | .notReady => some (componentWaitTime tries)
      | _ => none
    else none
  let result : PyRes :=
    if config.truthy then
      match env.setupResult tries with
      | .returns r => r
      | _ => .pFalse
    else .pFalse
  if result = .pTrue then
    some { result := true, setupInvoked := invoked, retryDelay := retryDelay,
           state := st }
  else
    match purgeDomains st.queued st.domains_to_setup with
    | none => none
    | some table2 =>
      some { result := false, setupInvoked := invoked, retryDelay := retryDelay,
             state := { domains_to_setup := table2, queued := [] } }

/-! ### Lemmas about the purge loop -/

theorem removeByKey_sound (table : List DomainToSetup) (k : String × Option String)
    (hmem : k ∈ table.map DomainToSetup.key)
    (hN : (table.map DomainToSetup.key).Nodup) :
    ∃ t2, removeByKey table k = some t2 ∧ (t2.map DomainToSetup.key).Nodup ∧
      ∀ k2, k2 ∈ t2.map DomainToSetup.key ↔
        (k2 ∈ table.map DomainToSetup.key ∧ k2 ≠ k) := by
  induction table with
  | nil => simp at hmem
  | cons e rest ih =>
    simp only [List.map_cons, List.nodup_cons] at hN
    by_cases he : e.key = k
    · refine ⟨rest, by simp [removeByKey, he], hN.2, ?_⟩
      intro k2
      constructor
      · intro h2
        refine ⟨by simp [h2], ?_⟩
        intro hk2
        exact hN.1 (he.symm ▸ hk2 ▸ h2)
      · rintro ⟨h2, hk2⟩
        simp only [List.map_cons, List.mem_cons] at h2
        rcases h2 with h3 | h3
        · exact absurd (h3.trans he) hk2
        · exact h3
    · have hmem2 : k ∈ rest.map DomainToSetup.key := by
        simp only [List.map_cons, List.mem_cons] at hmem
        rcases hmem with h3 | h3
        · exact absurd h3.symm he
        · exact h3
      obtain ⟨t2, ht2, hN2, hiff⟩ := ih hmem2 hN.2
      refine ⟨e :: t2, by simp [removeByKey, he, ht2], ?_, ?_⟩
      · simp only [List.map_cons, List.nodup_cons]
        exact ⟨fun hc => hN.1 ((hiff e.key).1 hc).1, hN2⟩
      · intro k2
        simp only [List.map_cons, List.mem_cons, hiff k2]
        constructor
        · rintro (h3 | ⟨h3, h4⟩)
          · exact ⟨Or.inl h3, fun hc => he (by rw [← h3, hc])⟩
          · exact ⟨Or.inr h3, h4⟩
        · rintro ⟨h3 | h3, h4⟩
          · exact Or.inl h3
          · exact Or.inr ⟨h3, h4⟩

theorem purgeDomains_sound (queued table : List DomainToSetup)
    (hT : (table.map DomainToSetup.key).Nodup)
    (hq : ∀ d ∈ queued, d.key ∈ table.map DomainToSetup.key)
    (hqN : (queued.map DomainToSetup.key).Nodup) :
    ∃ t2, purgeDomains queued table = some t2 ∧
      (∀ k2, k2 ∈ t2.map DomainToSetup.key → k2 ∈ table.map DomainToSetup.key) ∧
      ∀ d ∈ queued, d.key ∉ t2.map DomainToSetup.key := by
  induction queued generalizing table with
  | nil => exact ⟨table, rfl, fun _ h => h, by simp⟩
  | cons d rest ih =>
    simp only [List.map_cons, List.nodup_cons] at hqN
    obtain ⟨t1, ht1, hN1, hiff⟩ :=
      removeByKey_sound table d.key (hq d (by simp)) hT
    have hq2 : ∀ d2 ∈ rest, d2.key ∈ t1.map DomainToSetup.key := by
      intro d2 hd2
      refine (hiff d2.key).2 ⟨hq d2 (by simp [hd2]), ?_⟩
      intro hc
      exact hqN.1 (hc ▸ List.mem_map_of_mem DomainToSetup.key hd2)
    obtain ⟨t2, ht2, hsub, habs⟩ := ih t1 hN1 hq2 hqN.2
    refine ⟨t2, by simp [purgeDomains, ht1, ht2], ?_, ?_⟩
    · intro k2 hk2
      exact ((hiff k2).1 (hsub k2 hk2)).1
    · intro d2 hd2
      rcases List.mem_cons.1 hd2 with h3 | h3
      · subst h3
        intro hc
        exact ((hiff d2.key).1 (hsub _ hc)).2 rfl
      · exact habs d2 h3

/-! ### C4 and C5 -/

/-- C4: for every retry attempt `tries ≥ 1`, the NotReady retry delay for
both component and domain setup equals `min(tries * base, max)`; with the
base 3 and max 60, tries 1..5 give 3, 6, 9, 12, 15, and every `tries ≥ 20`
gives 60. -/
theorem retry_delay_formula (tries t : Nat) (_h1 : 1 ≤ tries) (h20 : 20 ≤ t) :
    (componentWaitTime tries = min (tries * 3) 60 ∧
      domainWaitTime tries = min (tries * 3) 60) ∧
    (List.map componentWaitTime [1, 2, 3, 4, 5] = [3, 6, 9, 12, 15] ∧
      List.map domainWaitTime [1, 2, 3, 4, 5] = [3, 6, 9, 12, 15]) ∧
    (componentWaitTime t = 60 ∧ domainWaitTime t = 60) := by
  refine ⟨⟨rfl, rfl⟩, ⟨by decide, by decide⟩, ?_, ?_⟩ <;>
    · simp only [componentWaitTime, domainWaitTime, COMPONENT_RETRY_INTERVAL,
        COMPONENT_RETRY_INTERVAL_MAX, DOMAIN_RETRY_INTERVAL,
        DOMAIN_RETRY_INTERVAL_MAX]
      omega

/-- Witness for C4 at `tries = 1`, `t = 20`. -/
theorem retry_delay_formula_witness :
    (1 ≤ 1 ∧ 20 ≤ 20) ∧
    ((componentWaitTime 1 = min (1 * 3) 60 ∧
        domainWaitTime 1 = min (1 * 3) 60) ∧
      (List.map componentWaitTime [1, 2, 3, 4, 5] = [3, 6, 9, 12, 15] ∧
        List.map domainWaitTime [1, 2, 3, 4, 5] = [3, 6, 9, 12, 15]) ∧
      (componentWaitTime 20 = 60 ∧ domainWaitTime 20 = 60)) :=
  ⟨⟨Nat.le_refl 1, Nat.le_refl 20⟩,
    retry_delay_formula 1 20 (Nat.le_refl 1) (Nat.le_refl 20)⟩

/-- C5: when the component's setup routine returns `True`,
`Component.setup_component` returns `True` and leaves the queued domains
intact; when it returns `False` or any non-boolean value, it returns
`False`, removes every queued domain's key from the global
`DOMAINS_TO_SETUP` table and empties the component's own pending list.
The hypotheses are the registry invariant maintained by
`add_domain_to_setup`: the dict-backed table has no duplicate keys and
every queued entry is filed in it under its key. -/
theorem setup_component_outcomes (env : CompEnv) (tries : Nat)
    (st : CompSetupState)
    (htable : (st.domains_to_setup.map DomainToSetup.key).Nodup)
    (hqueued : ∀ d ∈ st.queued,
      d.key ∈ st.domains_to_setup.map DomainToSetup.key)
    (hqN : (st.queued.map DomainToSetup.key).Nodup)
    (hc : env.validate.truthy = true) :
    (env.setupResult tries = .returns .pTrue →
      Component.setup_component env tries st =
        some { result := true, setupInvoked := true, retryDelay := none,
               state := st }) ∧
    ((env.setupResult tries = .returns .pFalse ∨
        env.setupResult tries = .returns .pOther) →
      ∃ r, Component.setup_component env tries st = some r ∧
        r.result = false ∧ r.setupInvoked = true ∧ r.state.queued = [] ∧
        ∀ d ∈ st.queued,
          d.key ∉ r.state.domains_to_setup.map DomainToSetup.key) := by
  constructor
  · intro h
    simp [Component.setup_component, hc, h]
  · intro h
    obtain ⟨t2, ht2, hsub, habs⟩ :=
      purgeDomains_sound st.queued st.domains_to_setup htable hqueued hqN
    refine ⟨{ result := false, setupInvoked := true, retryDelay := none,
              state := { domains_to_setup := t2, queued := [] } },
      ?_, rfl, rfl, rfl, habs⟩
    rcases h with h | h <;> simp [Component.setup_component, hc, h, ht2]

/-- Witness for C5 at a concrete input: a truthy config, a setup routine
returning `True`, and one queued domain. -/
theorem setup_component_outcomes_witness :
    Component.setup_component
        { validate := .vVal true, setupResult := fun _ => .returns .pTrue } 1
        { domains_to_setup :=
            [{ component := "comp1", domain := "object_detector",
               config := .jobj [], identifier := some "cam1",
               require_domains := [], optional_domains := [] }],
          queued :=
            [{ component := "comp1", domain := "object_detector",
               config := .jobj [], identifier := some "cam1",
               require_domains := [], optional_domains := [] }] } =
      some { result := true, setupInvoked := true, retryDelay := none,
             state :=
              { domains_to_setup :=
                  [{ component := "comp1", domain := "object_detector",
                     config := .jobj [], identifier := some "cam1",
                     require_domains := [], optional_domains := [] }],
                queued :=
                  [{ component := "comp1", domain := "object_detector",
                     config := .jobj [], identifier := some "cam1",
                     require_domains := [], optional_domains := [] }] } } :=
  (setup_component_outcomes
    { validate := .vVal true, setupResult := fun _ => .returns .pTrue } 1
    { domains_to_setup :=
        [{ component := "comp1", domain := "object_detector",
           config := .jobj [], identifier := some "cam1",
           require_domains := [], optional_domains := [] }],
      queued :=
        [{ component := "comp1", domain := "object_detector",
           config := .jobj [], identifier := some "cam1",
           require_domains := [], optional_domains := [] }] }
    (by decide) (by decide) (by decide) rfl).1 rfl

/-! ## Top-level `setup_component` and the components-by-state maps -/

/-- How `component.setup_component(tries=tries)` ends as seen by the
top-level `setup_component`: it returns a boolean, or importing the
component module raised `ModuleNotFoundError` (the only exception the
top-level call catches). -/
inductive MemberOutcome where
  | returns (b : Bool)
  | moduleNotFound
deriving DecidableEq

/-- The components-by-state registry maps `vis.data[LOADING]`,
`vis.data[LOADED]` and `vis.data[FAILED]`, modelled by key membership
(the stored component objects play no role in the claims). -/
structure VisComponents where
  loading : String → Bool
  loaded : String → Bool
  failed : String → Bool

/-- Python dict assignment `m[k] = v` (membership view). -/
def mapInsert (m : String → Bool) (k : String) : String → Bool :=
  fun x => if x = k then true else m x

/-- Python `del m[k]`: `none` is the `KeyError` raised when `k` is
absent. -/
def mapDelete (m : String → Bool) (k : String) : Option (String → Bool) :=
  if m k then some (fun x => if x = k then false else m x) else none

/-- The top-level `setup_component`: on a retry (`tries > 1`) first remove
the Failed marker, then put the component into Loading, run the member
setup (`ModuleNotFoundError` being caught and treated as failure), and move
the name to Loaded or Failed, deleting it from Loading. -/
def setup_component (name : String) (outcome : MemberOutcome) (tries : Nat)
    (st : VisComponents) : Option VisComponents :=
  let delFailed : Option VisComponents :=
    if tries > 1 then
      match mapDelete st.failed name with
      | none => none
      | some f => some { st with failed := f }
    else some st
  match delFailed with
  | none => none
  | some st1 =>
    let st2 := { st1 with loading := mapInsert st1.loading name }
    match outcome with
    | .returns true =>
      match mapDelete st2.loading name with
      | none => none
      | some l =>
        some { st2 with loaded := mapInsert st2.loaded name, loading := l }
    | .returns false =>
      match mapDelete st2.loading name with
      | none => none
      | some l =>
        some { st2 with failed := mapInsert st2.failed name, loading := l }
    | .moduleNotFound =>
      match mapDelete st2.loading name with
      | none => none
      | some l =>
        some { st2 with failed := mapInsert st2.failed name, loading := l }

/-- The C6 post-state check: the call completed without an uncaught
`KeyError`, `name` is no longer in Loading, and `name` is in exactly one of
Loaded and Failed. -/
def exclusiveAfter (name : String) (r : Option VisComponents) : Bool :=
  match r with
  | none => false
  | some st2 =>
    (!st2.loading name) && ((st2.loaded name).xor (st2.failed name))

/-- C6: after a call to the top-level `setup_component` completes, the
component's name is in exactly one of the Loaded and Failed maps and no
longer in the Loading map. The hypotheses describe the states from which
the orchestrator invokes it: a first attempt starts with the name in
neither map, a retry (`tries > 1`) starts with the name marked Failed by
the previous attempt. -/
theorem setup_component_state_exclusive (name : String)
    (outcome : MemberOutcome) (tries : Nat) (st : VisComponents)
    (h1 : tries ≤ 1 → st.failed name = false)
    (h2 : 1 < tries → st.failed name = true)
    (h3 : st.loaded name = false) :
    exclusiveAfter name (setup_component name outcome tries st) = true := by
  by_cases ht : 1 < tries
  · have hf := h2 ht
    cases outcome with
    | returns b =>
      cases b <;>
        simp [setup_component, exclusiveAfter, mapDelete, mapInsert, ht, hf, h3]
    | moduleNotFound =>
      simp [setup_component, exclusiveAfter, mapDelete, mapInsert, ht, hf, h3]
  · have hf := h1 (by omega)
    cases outcome with
    | returns b =>
      cases b <;>
        simp [setup_component, exclusiveAfter, mapDelete, mapInsert, ht, hf, h3]
    | moduleNotFound =>
      simp [setup_component, exclusiveAfter, mapDelete, mapInsert, ht, hf, h3]

/-- Witness for C6 at a concrete input: first attempt of `"webserver"`
whose member setup returns `True`, starting from empty maps. -/
theorem setup_component_state_exclusive_witness :
    exclusiveAfter "webserver"
      (setup_component "webserver" (.returns true) 1
        { loading := fun _ => false, loaded := fun _ => false,
          failed := fun _ => false }) = true :=
  setup_component_state_exclusive "webserver" (.returns true) 1
    { loading := fun _ => false, loaded := fun _ => false,
      failed := fun _ => false }
    (fun _ => rfl) (fun h => absurd h (by decide)) rfl

/-! ## `Component.setup_domain` (worker-pool task) -/

/-- Observable steps of one domain-setup worker task, in program order:
importing the domain module, validating its config, observing the completed
future of a dependency (with its resolved boolean), invoking the domain's
own setup routine (with the attempt number), and sleeping before a NotReady
retry. -/
inductive Event where
  | loadModule
  | validateConfig
  | awaitDep (key : String × Option String) (result : Bool)
  | invokeSetup (tries : Nat)
  | sleepRetry (seconds : Nat)
deriving DecidableEq

/-- Whether an event is an invocation of the domain's own setup routine. -/
def Event.isInvoke : Event → Bool
  | .invokeSetup _ => true
  | _ => false

/-- The environment one worker task runs against: the resolved results of
the futures in `DOMAIN_SETUP_TASKS` (a future completes with the boolean
its `Component.setup_domain` returned), the `DOMAIN_IDENTIFIERS` map, the
outcome of domain config validation, and how the domain module's `setup`
routine ends per attempt. -/
structure WorkerEnv where
  tasks : List ((String × Option String) × Bool)
  domainIdentifiers : List (String × List String)
  validateDomain : String → JValue → VConfig
  setupResult : String → Option String → Nat → SetupCall

/-- The optional dependencies that pass the presence test against
`DOMAIN_IDENTIFIERS`. -/
def presentOptionals (env : WorkerEnv) (dts : DomainToSetup) :
    List OptionalDomain :=
  dts.optional_domains.filter
    (fun od => identifierRegistered env.domainIdentifiers od.domain od.identifier)

/-- The futures `_setup_dependencies` waits on: one per required dependency
and one per present optional dependency, looked up in
`DOMAIN_SETUP_TASKS`; `none` is the `KeyError` raised when a looked-up
future is missing. -/
def awaitedFutures (env : WorkerEnv) (dts : DomainToSetup) :
    Option (List ((String × Option String) × Bool)) := do
  let req ← dts.require_domains.mapM (fun rd =>
    (lookupKey env.tasks (rd.domain, rd.identifier)).map
      (fun res => ((rd.domain, rd.identifier), res)))
  let opt ← (presentOptionals env dts).mapM (fun od =>
    (lookupKey env.tasks (od.domain, od.identifier)).map
      (fun res => ((od.domain, od.identifier), res)))
  pure (req ++ opt)

/-- `Component._setup_dependencies`: block on every awaited future
(`concurrent.futures.as_completed` yields them all, here linearised in list
order), collect those whose result `is not True` as failed, and return
whether none failed, together with the awaited-completion events. -/
def Component._setup_dependencies (env : WorkerEnv) (dts : DomainToSetup) :
    Option (Bool × List Event) :=
  match awaitedFutures env dts with
  | none => none
  | some futures =>
    some (futures.all (fun f => f.2),
          futures.map (fun f => Event.awaitDep f.1 f.2))

/-- Replace the value stored under a key (Python in-place mutation of a
dict entry's value). -/
def updateKey {α β : Type} [DecidableEq α] : List (α × β) → α → β → List (α × β)
  | [], _, _ => []
  | (k, v) :: rest, k2, v2 =>
    if k = k2 then (k, v2) :: rest else (k, v) :: updateKey rest k2 v2

/-- The cleanup in `Component.setup_domain`'s broad exception handler:
`vis.data[DOMAIN_IDENTIFIERS][dts.domain].remove(dts.identifier)` inside
`try: ... except KeyError: pass`. A missing domain key is the swallowed
`KeyError`; an identifier absent from the list (including `None`) raises an
uncaught `ValueError` from `list.remove`, modelled as `none`. -/
def removeIdentifier (dIds : List (String × List String)) (domain : String)
    (identifier : Option String) : Option (List (String × List String)) :=
  match lookupKey dIds domain with
  | none => some dIds
  | some ids =>
    match identifier with
    | none => none
    | some s =>
      if s ∈ ids then some (updateKey dIds domain (ids.erase s)) else none

/-- What one worker task produced: the boolean the task's future resolves
to, the observable event trace, and the (possibly mutated)
`DOMAIN_IDENTIFIERS` map. -/
structure WorkerResult where
  result : Bool
  trace : List Event
  domainIdentifiers : List (String × List String)
deriving DecidableEq

/-- `Component.setup_domain`: import the domain module, validate its
config, block on all awaited dependency futures, and abandon the task as
failed if any of them resolved to a non-`True` value; otherwise, if the
validated config is truthy, invoke the domain's own setup routine.
`DomainNotReady` sleeps `domainWaitTime tries` and re-invokes the whole
function with `tries + 1` on a fresh single-worker executor (fuel models
the unbounded retry recursion); any other exception removes the domain's
identifier from `DOMAIN_IDENTIFIERS` and the task fails. A non-boolean
setup return is logged and the task fails. -/
def Component.setup_domain (env : WorkerEnv) :
    Nat → DomainToSetup → Nat → Option WorkerResult
  | 0, _, _ => none
  | fuel + 1, dts, tries =>
    let config := env.validateDomain dts.domain dts.config
    match Component._setup_dependencies env dts with
    | none => none
    | some (depsOk, awaitEvents) =>
      let pre := Event.loadModule :: Event.validateConfig :: awaitEvents
      if depsOk then
        if config.truthy then
          match env.setupResult dts.domain dts.identifier tries with
          | .returns .pTrue =>
            some { result := true, trace := pre ++ [Event.invokeSetup tries],
                   domainIdentifiers := env.domainIdentifiers }
          | .returns .pFalse =>
            some { result := false, trace := pre ++ [Event.invokeSetup tries],
                   domainIdentifiers := env.domainIdentifiers }
          | .returns .pOther =>
            some { result := false, trace := pre ++ [Event.invokeSetup tries],
                   domainIdentifiers := env.domainIdentifiers }
          | .notReady =>
            match Component.setup_domain env fuel dts (tries + 1) with
            | none => none
            | some r =>
              some { result := r.result,
                     trace := pre ++ Event.invokeSetup tries ::
                       Event.sleepRetry (domainWaitTime tries) :: r.trace,
                     domainIdentifiers := r.domainIdentifiers }
          | .raises =>
            match removeIdentifier env.domainIdentifiers dts.domain
                dts.identifier with
            | none => none
            | some dIds =>
              some { result := false, trace := pre ++ [Event.invokeSetup tries],
                     domainIdentifiers := dIds }
        else
          some { result := false, trace := pre,
                 domainIdentifiers := env.domainIdentifiers }
      else
        some { result := false, trace := pre,
               domainIdentifiers := env.domainIdentifiers }

/-- The ordering check of C1: walking the trace, every invocation of the
domain's own setup routine must come after all awaited-dependency
completions still pending have been observed. -/
def awaitsPrecedeInvokes : List Event → List Event → Bool
  | _, [] => true
  | pending, e :: rest =>
    if e.isInvoke then pending.isEmpty && awaitsPrecedeInvokes pending rest
    else awaitsPrecedeInvokes (pending.erase e) rest

/-! ### Trace lemmas for C1 -/

theorem awaitsPrecedeInvokes_nil (t : List Event) :
    awaitsPrecedeInvokes [] t = true := by
  induction t with
  | nil => rfl
  | cons e rest ih => simp [awaitsPrecedeInvokes, ih]

theorem awaitsPrecedeInvokes_skip (pending t : List Event) (e : Event)
    (he : e.isInvoke = false) (hmem : e ∉ pending) :
    awaitsPrecedeInvokes pending (e :: t) = awaitsPrecedeInvokes pending t := by
  simp [awaitsPrecedeInvokes, he, List.erase_of_not_mem hmem]

theorem awaitsPrecedeInvokes_consume (l t : List Event)
    (h : ∀ e ∈ l, e.isInvoke = false) :
    awaitsPrecedeInvokes l (l ++ t) = awaitsPrecedeInvokes [] t := by
  induction l with
  | nil => simp
  | cons e rest ih =>
    have he : e.isInvoke = false := h e (by simp)
    simp only [List.cons_append, awaitsPrecedeInvokes, he, Bool.false_eq_true,
      if_false, List.erase_cons_head]
    exact ih (fun e2 he2 => h e2 (by simp [he2]))

theorem awaitEvents_no_invoke (fs : List ((String × Option String) × Bool)) :
    ∀ e ∈ fs.map (fun f => Event.awaitDep f.1 f.2), e.isInvoke = false := by
  intro e he
  simp only [List.mem_map] at he
  obtain ⟨f, _, rfl⟩ := he
  rfl

theorem awaitsPrecedeInvokes_worker (fs : List ((String × Option String) × Bool))
    (rest : List Event) :
    awaitsPrecedeInvokes (fs.map (fun f => Event.awaitDep f.1 f.2))
      (Event.loadModule :: Event.validateConfig ::
        (fs.map (fun f => Event.awaitDep f.1 f.2) ++ rest)) = true := by
  rw [awaitsPrecedeInvokes_skip _ _ Event.loadModule rfl (by simp [List.mem_map]),
    awaitsPrecedeInvokes_skip _ _ Event.validateConfig rfl (by simp [List.mem_map]),
    awaitsPrecedeInvokes_consume _ _ (awaitEvents_no_invoke fs),
    awaitsPrecedeInvokes_nil]

/-- Every successful worker run's trace starts with the module load, the
config validation and all awaited-dependency completions, in that order;
and when the dependency wait failed or the validated config is falsy, the
run stops there with a `False` result. -/
theorem setup_domain_trace_shape (env : WorkerEnv) (fuel tries : Nat)
    (dts : DomainToSetup) (r : WorkerResult)
    (hrun : Component.setup_domain env fuel dts tries = some r) :
    ∃ depsOk evs rest,
      Component._setup_dependencies env dts = some (depsOk, evs) ∧
      r.trace = Event.loadModule :: Event.validateConfig :: (evs ++ rest) ∧
      ((depsOk = false ∨
          (env.validateDomain dts.domain dts.config).truthy = false) →
        rest = [] ∧ r.result = false) := by
  cases fuel with
  | zero => simp [Component.setup_domain] at hrun
  | succ fuel =>
    rcases hsd : Component._setup_dependencies env dts with _ | ⟨depsOk, evs⟩
    · simp [Component.setup_domain, hsd] at hrun
    · simp only [Component.setup_domain, hsd] at hrun
      cases depsOk with
      | false =>
        simp only [Bool.false_eq_true, if_false, Option.some.injEq] at hrun
        subst hrun
        exact ⟨false, evs, [], rfl, by simp, fun _ => ⟨rfl, rfl⟩⟩
      | true =>
        rw [if_pos rfl] at hrun
        by_cases hcfg : (env.validateDomain dts.domain dts.config).truthy
        · rw [hcfg, if_pos rfl] at hrun
          cases hcall : env.setupResult dts.domain dts.identifier tries with
          | returns pr =>
            rw [hcall] at hrun
            cases pr <;>
              · simp only [Option.some.injEq] at hrun
                subst hrun
                exact ⟨true, evs, [Event.invokeSetup tries], rfl, rfl, by
                  intro h
                  rcases h with h | h <;> simp_all⟩
          | notReady =>
            rw [hcall] at hrun
            rcases hrec : Component.setup_domain env fuel dts (tries + 1) with
              _ | r2
            · rw [hrec] at hrun
              simp at hrun
            · rw [hrec] at hrun
              simp only [Option.some.injEq] at hrun
              subst hrun
              exact ⟨true, evs, Event.invokeSetup tries ::
                  Event.sleepRetry (domainWaitTime tries) :: r2.trace, rfl, rfl, by
                intro h
                rcases h with h | h <;> simp_all⟩
          | raises =>
            rw [hcall] at hrun
            rcases hrem : removeIdentifier env.domainIdentifiers dts.domain
                dts.identifier with _ | dIds
            · rw [hrem] at hrun
              simp at hrun
            · rw [hrem] at hrun
              simp only [Option.some.injEq] at hrun
              subst hrun
              exact ⟨true, evs, [Event.invokeSetup tries], rfl, rfl, by
                intro h
                rcases h with h | h <;> simp_all⟩
        · rw [Bool.not_eq_true] at hcfg
          rw [hcfg] at hrun
          simp only [Bool.false_eq_true, if_false, Option.some.injEq] at hrun
          subst hrun
          exact ⟨true, evs, [], rfl, by simp, fun _ => ⟨rfl, rfl⟩⟩

/-- C1: a worker task never invokes the domain's own setup routine before
it has observed the completion of every awaited dependency future (all
required dependencies and all present optional dependencies) — checked by
`awaitsPrecedeInvokes` over the task's trace — and if any awaited future
resolved to a value other than `True` (`fs.all` is `false`), the task
resolves to `False` without any invocation of its own setup routine. -/
theorem setup_domain_waits_for_dependencies (env : WorkerEnv)
    (fuel tries : Nat) (dts : DomainToSetup)
    (fs : List ((String × Option String) × Bool)) (r : WorkerResult)
    (hfs : awaitedFutures env dts = some fs)
    (hrun : Component.setup_domain env fuel dts tries = some r) :
    awaitsPrecedeInvokes (fs.map (fun f => Event.awaitDep f.1 f.2))
      r.trace = true ∧
    (fs.all (fun f => f.2) = false →
      r.result = false ∧ r.trace.all (fun e => !e.isInvoke) = true) := by
  obtain ⟨depsOk, evs, rest, hsd, htrace, hstop⟩ :=
    setup_domain_trace_shape env fuel tries dts r hrun
  have hsd2 : Component._setup_dependencies env dts =
      some (fs.all (fun f => f.2), fs.map (fun f => Event.awaitDep f.1 f.2)) := by
    simp [Component._setup_dependencies, hfs]
  rw [hsd2] at hsd
  obtain ⟨hok, hevs⟩ : fs.all (fun f => f.2) = depsOk ∧
      fs.map (fun f => Event.awaitDep f.1 f.2) = evs := by
    have h2 := Option.some.inj hsd
    exact ⟨congrArg Prod.fst h2, congrArg Prod.snd h2⟩
  constructor
  · rw [htrace, ← hevs]
    exact awaitsPrecedeInvokes_worker fs rest
  · intro hfail
    obtain ⟨hrest, hres⟩ := hstop (Or.inl (by rw [← hok, hfail]))
    refine ⟨hres, ?_⟩
    rw [htrace, hrest, ← hevs]
    simp only [List.append_nil, List.all_cons, Bool.and_eq_true,
      List.all_eq_true]
    exact ⟨rfl, rfl, fun e he => by simp [awaitEvents_no_invoke fs e he]⟩

/-- Witness for C1 at a concrete input: one required dependency whose
future resolved to `False`; the task fails without invoking its setup. -/
theorem setup_domain_waits_for_dependencies_witness :
    (awaitsPrecedeInvokes
        (List.map (fun f => Event.awaitDep f.1 f.2)
          [(("camera", some "cam1"), false)])
        (Component.setup_domain
          { tasks := [(("camera", some "cam1"), false)],
            domainIdentifiers := [("camera", ["cam1"])],
            validateDomain := fun _ _ => .vVal true,
            setupResult := fun _ _ _ => .returns .pTrue } 5
          { component := "compA", domain := "nvr", config := .jobj [],
            identifier := some "cam1",
            require_domains := [{ domain := "camera", identifier := some "cam1" }],
            optional_domains := [] } 1 |>.getD
          { result := true, trace := [], domainIdentifiers := [] }).trace =
      true) ∧
    (List.all [(("camera", some "cam1"), false)] (fun f => f.2) = false →
      (Component.setup_domain
          { tasks := [(("camera", some "cam1"), false)],
            domainIdentifiers := [("camera", ["cam1"])],
            validateDomain := fun _ _ => .vVal true,
            setupResult := fun _ _ _ => .returns .pTrue } 5
          { component := "compA", domain := "nvr", config := .jobj [],
            identifier := some "cam1",
            require_domains := [{ domain := "camera", identifier := some "cam1" }],
            optional_domains := [] } 1 |>.getD
          { result := true, trace := [], domainIdentifiers := [] }).result =
        false ∧
      ((Component.setup_domain
          { tasks := [(("camera", some "cam1"), false)],
            domainIdentifiers := [("camera", ["cam1"])],
            validateDomain := fun _ _ => .vVal true,
            setupResult := fun _ _ _ => .returns .pTrue } 5
          { component := "compA", domain := "nvr", config := .jobj [],
            identifier := some "cam1",
            require_domains := [{ domain := "camera", identifier := some "cam1" }],
            optional_domains := [] } 1 |>.getD
          { result := true, trace := [], domainIdentifiers := [] }).trace.all
        (fun e => !e.isInvoke) = true)) :=
  setup_domain_waits_for_dependencies
    { tasks := [(("camera", some "cam1"), false)],
      domainIdentifiers := [("camera", ["cam1"])],
      validateDomain := fun _ _ => .vVal true,
      setupResult := fun _ _ _ => .returns .pTrue } 5 1
    { component := "compA", domain := "nvr", config := .jobj [],
      identifier := some "cam1",
      require_domains := [{ domain := "camera", identifier := some "cam1" }],
      optional_domains := [] }
    [(("camera", some "cam1"), false)]
    ({ result := false,
       trace := [Event.loadModule, Event.validateConfig,
         Event.awaitDep ("camera", some "cam1") false],
       domainIdentifiers := [("camera", ["cam1"])] })
    rfl rfl

/-! ### C9: falsy validated configs -/

theorem _setup_dependencies_events (env : WorkerEnv) (dts : DomainToSetup)
    (depsOk : Bool) (evs : List Event)
    (h : Component._setup_dependencies env dts = some (depsOk, evs)) :
    ∀ e ∈ evs, e.isInvoke = false := by
  unfold Component._setup_dependencies at h
  rcases haf : awaitedFutures env dts with _ | fs
  · rw [haf] at h
    cases h
  · rw [haf] at h
    have h2 := Option.some.inj h
    have hevs : fs.map (fun f => Event.awaitDep f.1 f.2) = evs :=
      congrArg Prod.snd h2
    rw [← hevs]
    exact awaitEvents_no_invoke fs

/-- C9: a falsy config-validation result that is not the invalid marker
(e.g. an empty dict accepted by the schema) behaves exactly like a
rejection: for a component, the run is identical to the run with the `None`
marker, the setup routine is never invoked and the result is a failed
setup; for a domain, the task resolves to `False` and its trace contains no
invocation of the domain's own setup routine. -/
theorem falsy_config_skips_setup (env : CompEnv) (tries : Nat)
    (st : CompSetupState) (envD : WorkerEnv) (fuel tries2 : Nat)
    (dts : DomainToSetup)
    (hc : env.validate = .vVal false)
    (hcD : envD.validateDomain dts.domain dts.config = .vVal false) :
    Component.setup_component env tries st =
      Component.setup_component { env with validate := .vNone } tries st ∧
    Option.all (fun r => !r.setupInvoked && !r.result)
      (Component.setup_component env tries st) = true ∧
    Option.all (fun r => !r.result && r.trace.all (fun e => !e.isInvoke))
      (Component.setup_domain envD fuel dts tries2) = true := by
  refine ⟨?_, ?_, ?_⟩
  · simp [Component.setup_component, hc, VConfig.truthy]
  · rcases hp : purgeDomains st.queued st.domains_to_setup with _ | t2 <;>
      simp [Component.setup_component, hc, VConfig.truthy, hp, Option.all]
  · cases fuel with
    | zero => simp [Component.setup_domain, Option.all]
    | succ fuel =>
      rcases hsd : Component._setup_dependencies envD dts with _ | ⟨depsOk, evs⟩
      · simp [Component.setup_domain, hsd, Option.all]
      · have hevs := _setup_dependencies_events envD dts depsOk evs hsd
        have hall : (Event.loadModule :: Event.validateConfig :: evs).all
            (fun e => !e.isInvoke) = true := by
          simp only [List.all_cons, Bool.and_eq_true, List.all_eq_true]
          exact ⟨rfl, rfl, fun e he => by simp [hevs e he]⟩
        cases depsOk with
        | false =>
          simp [Component.setup_domain, hsd, Option.all, hall]
        | true =>
          simp [Component.setup_domain, hsd, hcD, VConfig.truthy, Option.all,
            hall]

/-- Witness for C9 at a concrete input: empty-dict (falsy) validated
configs for a component and a domain whose setup routines would return
`True`; neither routine is invoked and both runs fail. -/
theorem falsy_config_skips_setup_witness :
    (Component.setup_component
        { validate := .vVal false, setupResult := fun _ => .returns .pTrue } 1
        { domains_to_setup := [], queued := [] } =
      Component.setup_component
        { validate := VConfig.vNone, setupResult := fun _ => .returns .pTrue } 1
        { domains_to_setup := [], queued := [] }) ∧
    Option.all (fun r => !r.setupInvoked && !r.result)
      (Component.setup_component
        { validate := .vVal false, setupResult := fun _ => .returns .pTrue } 1
        { domains_to_setup := [], queued := [] }) = true ∧
    Option.all (fun r => !r.result && r.trace.all (fun e => !e.isInvoke))
      (Component.setup_domain
        { tasks := [], domainIdentifiers := [],
          validateDomain := fun _ _ => .vVal false,
          setupResult := fun _ _ _ => .returns .pTrue } 3
        { component := "compA", domain := "nvr", config := .jobj [],
          identifier := some "cam1", require_domains := [],
          optional_domains := [] } 1) = true :=
  falsy_config_skips_setup
    { validate := .vVal false, setupResult := fun _ => .returns .pTrue } 1
    { domains_to_setup := [], queued := [] }
    { tasks := [], domainIdentifiers := [],
      validateDomain := fun _ _ => .vVal false,
      setupResult := fun _ _ _ => .returns .pTrue } 3 1
    { component := "compA", domain := "nvr", config := .jobj [],
      identifier := some "cam1", require_domains := [],
      optional_domains := [] }
    rfl rfl

/-! ## The domain scheduler: top-level `setup_domain` / `_setup_domain` -/

/-- The registry state the scheduler reads: the flattened global
`DOMAINS_TO_SETUP` table and `DOMAIN_IDENTIFIERS`. The submission loop of
`setup_domains` runs on a single thread, so the lock-protected sections are
modelled as plain sequential steps. -/
structure SchedEnv where
  domains_to_setup : List DomainToSetup
  domain_identifiers : List (String × List String)

/-- `vis.data[DOMAINS_TO_SETUP][domain][identifier]`: the entry filed under
a key (`none` = `KeyError`). -/
def findEntry : List DomainToSetup → String → Option String → Option DomainToSetup
  | [], _, _ => none
  | e :: rest, d, i =>
    if e.domain = d ∧ e.identifier = i then some e else findEntry rest d i

/-- `DOMAIN_SETUP_TASKS` as the set of keys holding a submitted future
(`tasks`), plus the ghost list of submissions in order (`trace`): one entry
per `executor.submit`, i.e. per setup task that will execute. -/
structure SchedState where
  tasks : List (String × Option String)
  trace : List (String × Option String)
deriving DecidableEq

/-- `_setup_domain`: under `DOMAIN_SETUP_LOCK`, submit the worker task to
the executor and file its future under the entry's key. -/
def _setup_domain (dts : DomainToSetup) (st : SchedState) : SchedState :=
  { tasks := dts.key :: st.tasks, trace := st.trace ++ [dts.key] }

mutual

/-- Top-level `setup_domain`: under the lock, return at once when the key
already has a setup task; otherwise recursively submit every required
dependency, then every optional dependency present in
`DOMAIN_IDENTIFIERS`, and finally submit this entry itself. Fuel bounds
the recursion depth (the Python recursion has no bound and a dependency
cycle recurses forever). -/
def setup_domain (env : SchedEnv) : Nat → DomainToSetup → SchedState → Option SchedState
  | 0, _, _ => none
  | fuel + 1, dts, st =>
    if dts.key ∈ st.tasks then some st
    else
      match setupRequiredDeps env fuel dts.require_domains st with
      | none => none
      | some st1 =>
        match setupOptionalDeps env fuel dts.optional_domains st1 with
        | none => none
        | some st2 => some (_setup_domain dts st2)

/-- The `for required_domain in domain_to_setup.require_domains` loop of
`setup_domain`: look each dependency up in `DOMAINS_TO_SETUP` (`KeyError`
when pruned or never registered) and recurse. -/
def setupRequiredDeps (env : SchedEnv) : Nat → List RequireDomain → SchedState → Option SchedState
  | _, [], st => some st
  | 0, _ :: _, _ => none
  | fuel + 1, rd :: rest, st =>
    match findEntry env.domains_to_setup rd.domain rd.identifier with
    | none => none
    | some dep =>
      match setup_domain env fuel dep st with
      | none => none
      | some st1 => setupRequiredDeps env fuel rest st1

/-- The `for optional_domain in domain_to_setup.optional_domains` loop of
`setup_domain`: recurse only into optional dependencies present in
`DOMAIN_IDENTIFIERS`. -/
def setupOptionalDeps (env : SchedEnv) : Nat → List OptionalDomain → SchedState → Option SchedState
  | _, [], st => some st
  | 0, _ :: _, _ => none
  | fuel + 1, od :: rest, st =>
    if identifierRegistered env.domain_identifiers od.domain od.identifier then
      match findEntry env.domains_to_setup od.domain od.identifier with
      | none => none
      | some dep =>
        match setup_domain env fuel dep st with
        | none => none
        | some st1 => setupOptionalDeps env fuel rest st1
    else setupOptionalDeps env fuel rest st

end

/-- The submission loop of `setup_domains` (the `for domain ... for
domain_to_setup ...` nest over `DOMAINS_TO_SETUP`), starting from an empty
task map. `domain_dependencies` and the final join are modelled
separately. -/
def submitLoop (env : SchedEnv) (fuel : Nat) : List DomainToSetup → SchedState → Option SchedState
  | [], st => some st
  | dts :: rest, st =>
    match setup_domain env fuel dts st with
    | none => none
    | some st1 => submitLoop env fuel rest st1

/-- All submissions performed by `setup_domains` before it waits on the
futures. -/
def setup_domains_submit (env : SchedEnv) (fuel : Nat) : Option SchedState :=
  submitLoop env fuel env.domains_to_setup { tasks := [], trace := [] }

/-- The keys an entry depends on for scheduling purposes: its required
dependencies and its present optional dependencies. -/
def depKeys (env : SchedEnv) (e : DomainToSetup) : List (String × Option String) :=
  e.require_domains.map (fun rd => (rd.domain, rd.identifier)) ++
    (e.optional_domains.filter (fun od =>
        identifierRegistered env.domain_identifiers od.domain od.identifier)).map
      (fun od => (od.domain, od.identifier))

/-- One scheduling-dependency step between keys of the table. -/
def kstep (env : SchedEnv) (k1 k2 : String × Option String) : Prop :=
  ∃ e, findEntry env.domains_to_setup k1.1 k1.2 = some e ∧ k2 ∈ depKeys env e

/-- The task map is closed under scheduling dependencies: every submitted
key's dependencies are submitted too. -/
def DepClosed (env : SchedEnv) (st : SchedState) : Prop :=
  ∀ k ∈ st.tasks, ∀ k2, kstep env k k2 → k2 ∈ st.tasks

/-- The scheduler state invariant: the task map and the submission trace
hold the same keys, no key was submitted twice, and the task map is
dependency-closed. -/
def SchedInv (env : SchedEnv) (st : SchedState) : Prop :=
  (∀ k, k ∈ st.tasks ↔ k ∈ st.trace) ∧ st.trace.Nodup ∧ st.tasks.Nodup ∧
    DepClosed env st

theorem findEntry_key (table : List DomainToSetup) (d : String)
    (i : Option String) (e : DomainToSetup) (h : findEntry table d i = some e) :
    e.domain = d ∧ e.identifier = i ∧ e ∈ table := by
  induction table with
  | nil => cases h
  | cons f rest ih =>
    unfold findEntry at h
    by_cases hf : f.domain = d ∧ f.identifier = i
    · rw [if_pos hf] at h
      obtain rfl := Option.some.inj h
      exact ⟨hf.1, hf.2, by simp⟩
    · rw [if_neg hf] at h
      obtain ⟨h1, h2, h3⟩ := ih h
      exact ⟨h1, h2, by simp [h3]⟩

theorem findEntry_self (table : List DomainToSetup)
    (hN : (table.map DomainToSetup.key).Nodup) (e : DomainToSetup)
    (he : e ∈ table) : findEntry table e.domain e.identifier = some e := by
  induction table with
  | nil => cases he
  | cons f rest ih =>
    simp only [List.map_cons, List.nodup_cons] at hN
    rcases List.mem_cons.1 he with rfl | hmem
    · simp [findEntry]
    · unfold findEntry
      by_cases hf : f.domain = e.domain ∧ f.identifier = e.identifier
      · exfalso
        apply hN.1
        have : f.key = e.key := by
          simp [DomainToSetup.key, hf.1, hf.2]
        rw [this]
        exact List.mem_map_of_mem DomainToSetup.key hmem
      · rw [if_neg hf]
        exact ih hN.2 hmem

theorem depClosed_reach (env : SchedEnv) (st : SchedState)
    (hC : DepClosed env st) (a b : String × Option String)
    (hr : Relation.ReflTransGen (kstep env) a b) (ha : a ∈ st.tasks) :
    b ∈ st.tasks := by
  induction hr with
  | refl => exact ha
  | tail _ hbc ih => exact hC _ ih _ hbc

/-- The scheduler invariant is preserved by `setup_domain` and its two
dependency loops; moreover, keys newly submitted by a call never reach
(via `kstep`) any key in the set `S` of active ancestors, and the called
entry's key is submitted on success. The three conjuncts are proved by one
induction on the fuel. -/
theorem sched_invariants (env : SchedEnv)
    (hN : (env.domains_to_setup.map DomainToSetup.key).Nodup) :
    ∀ fuel : Nat,
      (∀ dts st (S : List (String × Option String)) st',
        dts ∈ env.domains_to_setup →
        (∀ s ∈ S, Relation.TransGen (kstep env) s dts.key) →
        (∀ s ∈ S, s ∉ st.tasks) →
        SchedInv env st →
        setup_domain env fuel dts st = some st' →
        SchedInv env st' ∧ (∀ k, k ∈ st.tasks → k ∈ st'.tasks) ∧
          (∀ k, k ∈ st'.tasks → k ∉ st.tasks →
            ∀ s ∈ S, ¬ Relation.ReflTransGen (kstep env) k s) ∧
          dts.key ∈ st'.tasks) ∧
      (∀ deps st (S : List (String × Option String)) st',
        (∀ rd ∈ deps, ∀ s ∈ S,
          Relation.TransGen (kstep env) s (rd.domain, rd.identifier)) →
        (∀ s ∈ S, s ∉ st.tasks) →
        SchedInv env st →
        setupRequiredDeps env fuel deps st = some st' →
        SchedInv env st' ∧ (∀ k, k ∈ st.tasks → k ∈ st'.tasks) ∧
          (∀ k, k ∈ st'.tasks → k ∉ st.tasks →
            ∀ s ∈ S, ¬ Relation.ReflTransGen (kstep env) k s) ∧
          (∀ rd ∈ deps, (rd.domain, rd.identifier) ∈ st'.tasks)) ∧
      (∀ deps st (S : List (String × Option String)) st',
        (∀ od ∈ deps,
          identifierRegistered env.domain_identifiers od.domain od.identifier =
            true →
          ∀ s ∈ S, Relation.TransGen (kstep env) s (od.domain, od.identifier)) →
        (∀ s ∈ S, s ∉ st.tasks) →
        SchedInv env st →
        setupOptionalDeps env fuel deps st = some st' →
        SchedInv env st' ∧ (∀ k, k ∈ st.tasks → k ∈ st'.tasks) ∧
          (∀ k, k ∈ st'.tasks → k ∉ st.tasks →
            ∀ s ∈ S, ¬ Relation.ReflTransGen (kstep env) k s) ∧
          (∀ od ∈ deps,
            identifierRegistered env.domain_identifiers od.domain od.identifier =
              true →
            (od.domain, od.identifier) ∈ st'.tasks)) := by
  intro fuel
  induction fuel with
  | zero =>
    refine ⟨?_, ?_, ?_⟩
    · intro dts st S st' _ _ _ _ h
      simp [setup_domain] at h
    · intro deps st S st' _ _ hInv h
      cases deps with
      | nil =>
        simp only [setupRequiredDeps] at h
        obtain rfl := Option.some.inj h
        exact ⟨hInv, fun _ hk => hk, fun k hk hnk => absurd hk hnk, by simp⟩
      | cons rd rest => simp [setupRequiredDeps] at h
    · intro deps st S st' _ _ hInv h
      cases deps with
      | nil =>
        simp only [setupOptionalDeps] at h
        obtain rfl := Option.some.inj h
        exact ⟨hInv, fun _ hk => hk, fun k hk hnk => absurd hk hnk, by simp⟩
      | cons od rest => simp [setupOptionalDeps] at h
  | succ fuel ih =>
    obtain ⟨ihA, ihB, ihC⟩ := ih
    refine ⟨?_, ?_, ?_⟩
    · -- setup_domain at fuel + 1
      intro dts st S st' hmem hanc hS hInv hrun
      by_cases hk : dts.key ∈ st.tasks
      · simp only [setup_domain, if_pos hk] at hrun
        obtain rfl := Option.some.inj hrun
        exact ⟨hInv, fun _ hk2 => hk2, fun k hk2 hnk => absurd hk2 hnk, hk⟩
      · simp only [setup_domain, if_neg hk] at hrun
        rcases hreq : setupRequiredDeps env fuel dts.require_domains st with
          _ | st1
        · rw [hreq] at hrun
          simp at hrun
        · rw [hreq] at hrun
          dsimp only at hrun
          rcases hopt : setupOptionalDeps env fuel dts.optional_domains st1 with
            _ | st2
          · rw [hopt] at hrun
            simp at hrun
          · rw [hopt] at hrun
            dsimp only at hrun
            obtain rfl := Option.some.inj hrun
            have hfind : findEntry env.domains_to_setup dts.domain
                dts.identifier = some dts := findEntry_self _ hN dts hmem
            have hstep : ∀ k2 ∈ depKeys env dts, kstep env dts.key k2 :=
              fun k2 hk2 => ⟨dts, hfind, hk2⟩
            have hanc2 : ∀ rd ∈ dts.require_domains, ∀ s ∈ dts.key :: S,
                Relation.TransGen (kstep env) s (rd.domain, rd.identifier) := by
              intro rd hrd s hs
              have hdep : kstep env dts.key (rd.domain, rd.identifier) :=
                hstep _ (List.mem_append.2 (Or.inl
                  (List.mem_map.2 ⟨rd, hrd, rfl⟩)))
              rcases List.mem_cons.1 hs with rfl | hs2
              · exact Relation.TransGen.single hdep
              · exact (hanc s hs2).tail hdep
            have hS2 : ∀ s ∈ dts.key :: S, s ∉ st.tasks := by
              intro s hs
              rcases List.mem_cons.1 hs with rfl | hs2
              · exact hk
              · exact hS s hs2
            obtain ⟨hInv1, hmono1, hD1, hdeps1⟩ :=
              ihB dts.require_domains st (dts.key :: S) st1 hanc2 hS2 hInv hreq
            have hS2' : ∀ s ∈ dts.key :: S, s ∉ st1.tasks := by
              intro s hs hc
              by_cases hin : s ∈ st.tasks
              · exact hS2 s hs hin
              · exact hD1 s hc hin s hs Relation.ReflTransGen.refl
            have hanc3 : ∀ od ∈ dts.optional_domains,
                identifierRegistered env.domain_identifiers od.domain
                  od.identifier = true →
                ∀ s ∈ dts.key :: S,
                  Relation.TransGen (kstep env) s (od.domain, od.identifier) := by
              intro od hod hreg s hs
              have hdep : kstep env dts.key (od.domain, od.identifier) :=
                hstep _ (List.mem_append.2 (Or.inr
                  (List.mem_map.2 ⟨od, List.mem_filter.2 ⟨hod, hreg⟩, rfl⟩)))
              rcases List.mem_cons.1 hs with rfl | hs2
              · exact Relation.TransGen.single hdep
              · exact (hanc s hs2).tail hdep
            obtain ⟨hInv2, hmono2, hD2, hdeps2⟩ :=
              ihC dts.optional_domains st1 (dts.key :: S) st2 hanc3 hS2' hInv1
                hopt
            have hS2'' : ∀ s ∈ dts.key :: S, s ∉ st2.tasks := by
              intro s hs hc
              by_cases hin : s ∈ st1.tasks
              · exact hS2' s hs hin
              · exact hD2 s hc hin s hs Relation.ReflTransGen.refl
            have hknew : dts.key ∉ st2.tasks := hS2'' dts.key (by simp)
            have hDall : ∀ k, k ∈ st2.tasks → k ∉ st.tasks →
                ∀ s ∈ dts.key :: S, ¬ Relation.ReflTransGen (kstep env) k s := by
              intro k hk2 hnk s hs hr
              by_cases hin : k ∈ st1.tasks
              · exact hD1 k hin hnk s hs hr
              · exact hD2 k hk2 hin s hs hr
            have hdepsIn : ∀ k2 ∈ depKeys env dts, k2 ∈ st2.tasks := by
              intro k2 hk2
              rcases List.mem_append.1 hk2 with h | h
              · obtain ⟨rd, hrd, rfl⟩ := List.mem_map.1 h
                exact hmono2 _ (hdeps1 rd hrd)
              · obtain ⟨od, hod, rfl⟩ := List.mem_map.1 h
                have hf := List.mem_filter.1 hod
                exact hdeps2 od hf.1 hf.2
            have hDkey : ∀ s ∈ S, ¬ Relation.ReflTransGen (kstep env)
                dts.key s := by
              intro s hs hr
              obtain ⟨k1, target, hk1, hrt, htmem⟩ :
                  ∃ k1 target, kstep env dts.key k1 ∧
                    Relation.ReflTransGen (kstep env) k1 target ∧
                    target ∈ dts.key :: S := by
                rcases Relation.ReflTransGen.cases_head hr with rfl | ⟨c, hc, hcr⟩
                · obtain ⟨c, hc, hcr⟩ :=
                    (Relation.TransGen.head'_iff).1 (hanc _ hs)
                  exact ⟨c, dts.key, hc, hcr, by simp⟩
                · exact ⟨c, s, hc, hcr, by simp [hs]⟩
              obtain ⟨e, hfe, hke⟩ := hk1
              simp only [DomainToSetup.key] at hfe
              rw [hfind] at hfe
              obtain rfl := Option.some.inj hfe
              have hk1in : k1 ∈ st2.tasks := hdepsIn k1 hke
              by_cases hin : k1 ∈ st.tasks
              · exact hS2 target htmem
                  (depClosed_reach env st hInv.2.2.2 k1 target hrt hin)
              · exact hDall k1 hk1in hin target htmem hrt
            have hkeytr : dts.key ∉ st2.trace :=
              fun hc => hknew ((hInv2.1 dts.key).2 hc)
            refine ⟨⟨?_, ?_, ?_, ?_⟩, ?_, ?_, ?_⟩
            · intro k
              simp only [_setup_domain, List.mem_cons, List.mem_append,
                List.mem_singleton, hInv2.1 k]
              tauto
            · refine (List.nodup_append).2
                ⟨hInv2.2.1, List.nodup_singleton _, ?_⟩
              intro a ha hb
              rw [List.mem_singleton] at hb
              subst hb
              exact hkeytr ha
            · exact List.nodup_cons.2 ⟨hknew, hInv2.2.2.1⟩
            · intro k hk3 k2 hk4
              rcases List.mem_cons.1 hk3 with rfl | h3
              · obtain ⟨e, hfe, hke⟩ := hk4
                simp only [DomainToSetup.key] at hfe
                rw [hfind] at hfe
                obtain rfl := Option.some.inj hfe
                exact List.mem_cons.2 (Or.inr (hdepsIn k2 hke))
              · exact List.mem_cons.2
                  (Or.inr (hInv2.2.2.2 k h3 k2 hk4))
            · intro k hk3
              exact List.mem_cons.2 (Or.inr (hmono2 k (hmono1 k hk3)))
            · intro k hk3 hnk s hs hr
              rcases List.mem_cons.1 hk3 with rfl | h3
              · exact hDkey s hs hr
              · exact hDall k h3 hnk s (List.mem_cons.2 (Or.inr hs)) hr
            · exact List.mem_cons.2 (Or.inl rfl)
    · -- setupRequiredDeps at fuel + 1
      intro deps st S st' hdeps hS hInv hrun
      cases deps with
      | nil =>
        simp only [setupRequiredDeps] at hrun
        obtain rfl := Option.some.inj hrun
        exact ⟨hInv, fun _ hk => hk, fun k hk hnk => absurd hk hnk, by simp⟩
      | cons rd rest =>
        simp only [setupRequiredDeps] at hrun
        rcases hfe : findEntry env.domains_to_setup rd.domain rd.identifier with
          _ | dep
        · rw [hfe] at hrun
          simp at hrun
        · rw [hfe] at hrun
          dsimp only at hrun
          rcases hsub : setup_domain env fuel dep st with _ | st1
          · rw [hsub] at hrun
            simp at hrun
          · rw [hsub] at hrun
            dsimp only at hrun
            obtain ⟨hdom, hid, hmemdep⟩ := findEntry_key _ _ _ _ hfe
            have hdepkey : dep.key = (rd.domain, rd.identifier) := by
              simp [DomainToSetup.key, hdom, hid]
            have hancdep : ∀ s ∈ S, Relation.TransGen (kstep env) s dep.key := by
              intro s hs
              rw [hdepkey]
              exact hdeps rd (by simp) s hs
            obtain ⟨hInv1, hmono1, hD1, hkey1⟩ :=
              ihA dep st S st1 hmemdep hancdep hS hInv hsub
            have hS1 : ∀ s ∈ S, s ∉ st1.tasks := by
              intro s hs hc
              by_cases hin : s ∈ st.tasks
              · exact hS s hs hin
              · exact hD1 s hc hin s hs Relation.ReflTransGen.refl
            obtain ⟨hInv2, hmono2, hD2, hrest⟩ :=
              ihB rest st1 S st' (fun rd2 h2 => hdeps rd2 (by simp [h2])) hS1
                hInv1 hrun
            refine ⟨hInv2, fun k hk => hmono2 k (hmono1 k hk), ?_, ?_⟩
            · intro k hk hnk s hs hr
              by_cases hin : k ∈ st1.tasks
              · exact hD1 k hin hnk s hs hr
              · exact hD2 k hk hin s hs hr
            · intro rd2 h2
              rcases List.mem_cons.1 h2 with rfl | h3
              · rw [← hdepkey]
                exact hmono2 _ hkey1
              · exact hrest rd2 h3
    · -- setupOptionalDeps at fuel + 1
      intro deps st S st' hdeps hS hInv hrun
      cases deps with
      | nil =>
        simp only [setupOptionalDeps] at hrun
        obtain rfl := Option.some.inj hrun
        exact ⟨hInv, fun _ hk => hk, fun k hk hnk => absurd hk hnk, by simp⟩
      | cons od rest =>
        simp only [setupOptionalDeps] at hrun
        by_cases hreg : identifierRegistered env.domain_identifiers od.domain
            od.identifier = true
        · rw [if_pos hreg] at hrun
          rcases hfe : findEntry env.domains_to_setup od.domain od.identifier
            with _ | dep
          · rw [hfe] at hrun
            simp at hrun
          · rw [hfe] at hrun
            dsimp only at hrun
            rcases hsub : setup_domain env fuel dep st with _ | st1
            · rw [hsub] at hrun
              simp at hrun
            · rw [hsub] at hrun
              dsimp only at hrun
              obtain ⟨hdom, hid, hmemdep⟩ := findEntry_key _ _ _ _ hfe
              have hdepkey : dep.key = (od.domain, od.identifier) := by
                simp [DomainToSetup.key, hdom, hid]
              have hancdep : ∀ s ∈ S,
                  Relation.TransGen (kstep env) s dep.key := by
                intro s hs
                rw [hdepkey]
                exact hdeps od (by simp) hreg s hs
              obtain ⟨hInv1, hmono1, hD1, hkey1⟩ :=
                ihA dep st S st1 hmemdep hancdep hS hInv hsub
              have hS1 : ∀ s ∈ S, s ∉ st1.tasks := by
                intro s hs hc
                by_cases hin : s ∈ st.tasks
                · exact hS s hs hin
                · exact hD1 s hc hin s hs Relation.ReflTransGen.refl
              obtain ⟨hInv2, hmono2, hD2, hrest⟩ :=
                ihC rest st1 S st' (fun od2 h2 => hdeps od2 (by simp [h2])) hS1
                  hInv1 hrun
              refine ⟨hInv2, fun k hk => hmono2 k (hmono1 k hk), ?_, ?_⟩
              · intro k hk hnk s hs hr
                by_cases hin : k ∈ st1.tasks
                · exact hD1 k hin hnk s hs hr
                · exact hD2 k hk hin s hs hr
              · intro od2 h2 hreg2
                rcases List.mem_cons.1 h2 with rfl | h3
                · rw [← hdepkey]
                  exact hmono2 _ hkey1
                · exact hrest od2 h3 hreg2
        · rw [if_neg hreg] at hrun
          obtain ⟨hInv2, hmono2, hD2, hrest⟩ :=
            ihC rest st S st' (fun od2 h2 => hdeps od2 (by simp [h2])) hS hInv
              hrun
          refine ⟨hInv2, hmono2, hD2, ?_⟩
          intro od2 h2 hreg2
          rcases List.mem_cons.1 h2 with rfl | h3
          · exact absurd hreg2 hreg
          · exact hrest od2 h3 hreg2

theorem submitLoop_inv (env : SchedEnv)
    (hN : (env.domains_to_setup.map DomainToSetup.key).Nodup) (fuel : Nat) :
    ∀ l st st', (∀ d ∈ l, d ∈ env.domains_to_setup) → SchedInv env st →
      submitLoop env fuel l st = some st' → SchedInv env st' := by
  intro l
  induction l with
  | nil =>
    intro st st' _ hInv h
    simp only [submitLoop] at h
    obtain rfl := Option.some.inj h
    exact hInv
  | cons d rest ih =>
    intro st st' hmem hInv h
    simp only [submitLoop] at h
    rcases hd : setup_domain env fuel d st with _ | st1
    · rw [hd] at h
      simp at h
    · rw [hd] at h
      dsimp only at h
      have hA := (sched_invariants env hN fuel).1 d st [] st1
        (hmem d (by simp)) (by simp) (by simp) hInv hd
      exact ih st1 st' (fun d2 h2 => hmem d2 (by simp [h2])) hA.1 h

/-- C2: for every (domain type, identifier) pair, at most one setup task is
ever inserted into `DOMAIN_SETUP_TASKS`, and hence at most one worker task
is executed for that pair, even though the `setup_domains` submission loop
invokes `setup_domain` for the same pair several times (once as a pending
entry and again as a dependency of each dependent): the lock-protected
check-then-insert makes submission idempotent. Formally, any completed
submission run leaves a duplicate-free submission trace and task map. The
hypothesis is the dict-backed table invariant: entry keys are unique.
(The submission loop runs on a single thread in `setup_domains`, so the
sequential model is exact.) -/
theorem setup_domain_at_most_once (env : SchedEnv) (fuel : Nat)
    (st' : SchedState)
    (hN : (env.domains_to_setup.map DomainToSetup.key).Nodup)
    (h : setup_domains_submit env fuel = some st') :
    st'.trace.Nodup ∧ st'.tasks.Nodup := by
  have hInv0 : SchedInv env { tasks := [], trace := [] } :=
    ⟨by simp, List.nodup_nil, List.nodup_nil,
      fun k hk => absurd hk (List.not_mem_nil k)⟩
  have hInv := submitLoop_inv env hN fuel env.domains_to_setup
    { tasks := [], trace := [] } st' (fun _ h2 => h2) hInv0 h
  exact ⟨hInv.2.1, hInv.2.2.1⟩

/-- Witness for C2 at a concrete input: a diamond — `da` requires `db` and
`dc`, which both require `dd` — where `dd` is requested by two dependents
yet is submitted exactly once. -/
theorem setup_domain_at_most_once_witness :
    setup_domains_submit
        { domains_to_setup :=
            [{ component := "compA", domain := "da", config := .jobj [],
               identifier := some "a",
               require_domains := [{ domain := "db", identifier := some "b" },
                                   { domain := "dc", identifier := some "c" }],
               optional_domains := [] },
             { component := "compB", domain := "db", config := .jobj [],
               identifier := some "b",
               require_domains := [{ domain := "dd", identifier := some "d" }],
               optional_domains := [] },
             { component := "compC", domain := "dc", config := .jobj [],
               identifier := some "c",
               require_domains := [{ domain := "dd", identifier := some "d" }],
               optional_domains := [] },
             { component := "compD", domain := "dd", config := .jobj [],
               identifier := some "d",
               require_domains := [], optional_domains := [] }],
          domain_identifiers :=
            [("da", ["a"]), ("db", ["b"]), ("dc", ["c"]), ("dd", ["d"])] } 10 =
      some { tasks := [("da", some "a"), ("dc", some "c"), ("db", some "b"),
                       ("dd", some "d")],
             trace := [("dd", some "d"), ("db", some "b"), ("dc", some "c"),
                       ("da", some "a")] } ∧
    (({ tasks := [("da", some "a"), ("dc", some "c"), ("db", some "b"),
                  ("dd", some "d")],
        trace := [("dd", some "d"), ("db", some "b"), ("dc", some "c"),
                  ("da", some "a")] } : SchedState).trace.Nodup ∧
      ({ tasks := [("da", some "a"), ("dc", some "c"), ("db", some "b"),
                   ("dd", some "d")],
         trace := [("dd", some "d"), ("db", some "b"), ("dc", some "c"),
                   ("da", some "a")] } : SchedState).tasks.Nodup) :=
  ⟨rfl,
    setup_domain_at_most_once
      { domains_to_setup :=
          [{ component := "compA", domain := "da", config := .jobj [],
             identifier := some "a",
             require_domains := [{ domain := "db", identifier := some "b" },
                                 { domain := "dc", identifier := some "c" }],
             optional_domains := [] },
           { component := "compB", domain := "db", config := .jobj [],
             identifier := some "b",
             require_domains := [{ domain := "dd", identifier := some "d" }],
             optional_domains := [] },
           { component := "compC", domain := "dc", config := .jobj [],
             identifier := some "c",
             require_domains := [{ domain := "dd", identifier := some "d" }],
             optional_domains := [] },
           { component := "compD", domain := "dd", config := .jobj [],
             identifier := some "d",
             require_domains := [], optional_domains := [] }],
        domain_identifiers :=
          [("da", ["a"]), ("db", ["b"]), ("dc", ["c"]), ("dd", ["d"])] } 10
      { tasks := [("da", some "a"), ("dc", some "c"), ("db", some "b"),
                  ("dd", some "d")],
        trace := [("dd", some "d"), ("db", some "b"), ("dc", some "c"),
                  ("da", some "a")] }
      (by decide) rfl⟩

/-! ## The dependency resolver: `domain_dependencies` -/

/-- The registry state `domain_dependencies` works on: the flattened global
`DOMAINS_TO_SETUP` table, each component's own `domains_to_setup` list
(keyed by component name), and `DOMAIN_IDENTIFIERS`. -/
structure ResolverState where
  domains_to_setup : List DomainToSetup
  components : List (String × List DomainToSetup)
  domain_identifiers : List (String × List String)
deriving DecidableEq

/-- `vis.data[DOMAIN_IDENTIFIERS].setdefault(domain, []).append(identifier)`. -/
def appendIdentifier (dIds : List (String × List String)) (domain : String)
    (identifier : Option String) : List (String × List String) :=
  match identifier with
  | none => dIds
  | some s =>
    match lookupKey dIds domain with
    | none => dIds ++ [(domain, [s])]
    | some ids => updateKey dIds domain (ids ++ [s])

/-- The first pass of `domain_dependencies`: collect, per domain type, the
identifiers of every pending entry whose identifier is truthy. -/
def buildIdentifiers : List DomainToSetup → List (String × List String) →
    List (String × List String)
  | [], dIds => dIds
  | e :: rest, dIds =>
    if truthyIdent e.identifier then
      buildIdentifiers rest (appendIdentifier dIds e.domain e.identifier)
    else buildIdentifiers rest dIds

/-- `domain_to_setup.component.domains_to_setup.remove(domain_to_setup)`:
Python `list.remove` removes the first element equal to the entry and
raises `ValueError` (`none`) when none is equal. The owning component is
resolved by name (an attribute access in Python, which cannot fail; a
missing name in this keyed model also yields `none`). -/
def removeFromComponent (comps : List (String × List DomainToSetup))
    (name : String) (e : DomainToSetup) :
    Option (List (String × List DomainToSetup)) :=
  match lookupKey comps name with
  | none => none
  | some l => if e ∈ l then some (updateKey comps name (l.erase e)) else none

/-- The inner `for require_domain in domain_to_setup.require_domains` loop
of the resolver's second pass: a satisfied dependency is skipped
(`continue`); an unsatisfied one logs an error, removes the entry from the
owning component's list and deletes it from the global table — and the
loop then continues with the next required dependency of the **same,
already removed** entry (there is no `break` in the source). -/
def pruneEntry (e : DomainToSetup) :
    List RequireDomain → ResolverState → Option ResolverState
  | [], st => some st
  | rd :: rest, st =>
    if identifierRegistered st.domain_identifiers rd.domain rd.identifier then
      pruneEntry e rest st
    else
      match removeFromComponent st.components e.component e with
      | none => none
      | some comps =>
        match removeByKey st.domains_to_setup e.key with
        | none => none
        | some table =>
          pruneEntry e rest
            { st with components := comps, domains_to_setup := table }

/-- The second pass of `domain_dependencies` over a snapshot of the pending
entries (the Python loop copies each inner dict's values before mutating
it, and deletions only ever hit the inner dict currently being iterated, so
an upfront snapshot is equivalent); entries without required dependencies
are skipped. -/
def pruneAll : List DomainToSetup → ResolverState → Option ResolverState
  | [], st => some st
  | e :: rest, st =>
    if e.require_domains.isEmpty then pruneAll rest st
    else
      match pruneEntry e e.require_domains st with
      | none => none
      | some st1 => pruneAll rest st1

/-- `domain_dependencies`: build `DOMAIN_IDENTIFIERS` from every pending
entry, then prune every pending entry having an unsatisfied required
dependency. `none` is an uncaught exception escaping the resolver (and
with it `setup_domains`). -/
def domain_dependencies (st : ResolverState) : Option ResolverState :=
  let st1 := { st with
    domain_identifiers :=
      buildIdentifiers st.domains_to_setup st.domain_identifiers }
  pruneAll st1.domains_to_setup st1

/-- C3: the claim says that every pending entry with a required dependency
absent from the identifier set built in the first pass is removed from the
owning component's list and the global table, reported, and never
submitted. The code does this only for an entry's **first** missing
required dependency: because the pruning loop has no `break`, an entry with
two missing required dependencies is removed twice, and the second
`list.remove` raises an uncaught `ValueError` (first conjunct: the run
aborts, so the later entry `("b", "2")` — which the claim says is also
pruned and reported — is never processed). With a single missing required
dependency per entry the pruning works as described (second conjunct). -/
theorem domain_dependencies_double_missing_crash :
    domain_dependencies
        { domains_to_setup :=
            [{ component := "c1", domain := "a", config := .jobj [],
               identifier := some "1",
               require_domains := [{ domain := "dep", identifier := some "x" },
                                   { domain := "dep", identifier := some "y" }],
               optional_domains := [] },
             { component := "c2", domain := "b", config := .jobj [],
               identifier := some "2",
               require_domains := [{ domain := "dep", identifier := some "z" }],
               optional_domains := [] }],
          components :=
            [("c1", [{ component := "c1", domain := "a", config := .jobj [],
                       identifier := some "1",
                       require_domains :=
                         [{ domain := "dep", identifier := some "x" },
                          { domain := "dep", identifier := some "y" }],
                       optional_domains := [] }]),
             ("c2", [{ component := "c2", domain := "b", config := .jobj [],
                       identifier := some "2",
                       require_domains :=
                         [{ domain := "dep", identifier := some "z" }],
                       optional_domains := [] }])],
          domain_identifiers := [] } = none ∧
    domain_dependencies
        { domains_to_setup :=
            [{ component := "c1", domain := "a", config := .jobj [],
               identifier := some "1",
               require_domains := [{ domain := "dep", identifier := some "x" }],
               optional_domains := [] }],
          components :=
            [("c1", [{ component := "c1", domain := "a", config := .jobj [],
                       identifier := some "1",
                       require_domains :=
                         [{ domain := "dep", identifier := some "x" }],
                       optional_domains := [] }])],
          domain_identifiers := [] } =
      some { domains_to_setup := [], components := [("c1", [])],
             domain_identifiers := [("a", ["1"])] } :=
  ⟨rfl, rfl⟩
